import Mathlib

/-!
Shallow embedding of `linetools/spectralline.py`: the `SpectralLine` /
`AbsLine` classes (window extraction, equivalent-width measurement, AODM
column-density measurement, Voigt-profile parameter validation, line
matching) and the bulk constructor `many_abslines`.

Conventions of the embedding:
* numpy float arrays become `List ℚ`; physical quantities are rational
  magnitudes in fixed units (wavelengths in Angstrom, velocities in km/s);
* the external collaborators (the spectrum's pixel lookup and velocity
  conversion, the numeric estimators `box_ew`, `gaussian_ew`, `aodm`,
  `log_clm`, the Voigt synthesis, `SkyCoord.separation`, and the
  line-list atomic-data lookup) are opaque function parameters collected
  in an `Env` record — no claim depends on their internals;
* Python exceptions become `Except Err`;
* object identity for the bulk constructor is modelled with an explicit
  heap (`List AbsLine` indexed by allocation order), so that deep-copy
  independence is a statement about distinct heap addresses.
-/

namespace Linetools

abbrev Arr := List ℚ

/-- Sky coordinate (ra, dec in degrees); `SkyCoord` itself is external,
only default construction and the separation test are used. -/
structure Coord where
  ra : ℚ
  dec : ℚ
deriving DecidableEq

/-- Atomic data for a transition, as returned by the line-list lookup
(`llist[trans]`); fields are the ones `spectralline.py` reads. -/
structure AtomData where
  wrest : ℚ
  name : String
  Z : Int
  ion : Int
  f : ℚ
deriving DecidableEq

/-- The `attrib` dict of a `SpectralLine`/`AbsLine`.  `__init__` populates
`coord, z, zsig, v, vsig, EW, sigEW, flgEW`; `AbsLine.fill_data` adds
`N, Nsig, flagN, b, bsig`; `measure_aodm` later writes `sigN, logN,
sig_logN` (distinct keys from `Nsig`!).  Keys that a fresh line does not
yet have are modelled as fields holding their eventual first value's
type, initialized to 0. -/
structure Attrib where
  coord : Coord
  z : ℚ
  zsig : ℚ
  v : ℚ
  vsig : ℚ
  EW : ℚ
  sigEW : ℚ
  flgEW : Int
  N : ℚ
  Nsig : ℚ
  flagN : Int
  b : ℚ
  bsig : ℚ
  sigN : ℚ
  logN : ℚ
  sig_logN : ℚ
deriving DecidableEq

/-- The external spectrum object (`XSpectrum1D`).  Array-valued fields are
its data; `unitless` is the test `spec.wcs.unit == 1.`; `conti` is `none`
when the object has no `conti` attribute (the `AttributeError` branch);
`velo` is a plain attribute that `cut_spec` overwrites.  `pixMinmaxWv`,
`pixMinmaxV` and `relativeVel` are the spectrum's own (external) methods
`pix_minmax` (wavelength- and velocity-interval overloads, first tuple
component) and `relative_vel`. -/
structure Spectrum where
  flux : Arr
  sig : Arr
  dispersion : Arr
  unitless : Bool
  conti : Option Arr
  velo : Arr
  pixMinmaxWv : ℚ × ℚ → List Nat
  pixMinmaxV : ℚ → ℚ → ℚ × ℚ → List Nat
  relativeVel : ℚ → Arr

/-- The `analy` dict: analysis inputs.  `pix` is absent until `cut_spec`
caches the selected pixel range. -/
structure Analy where
  spec : Option Spectrum
  wvlim : ℚ × ℚ
  vlim : ℚ × ℚ
  do_analysis : Int
  pix : Option (List Nat)
  flg_eye : Int
  flg_limit : Int
  datafile : String
  aname : String

/-- An absorption line object (`AbsLine`, the only constructible
`SpectralLine` subtype). -/
structure AbsLine where
  wrest : ℚ
  trans : String
  data : AtomData
  attrib : Attrib
  analy : Analy

/-- A resolved `LineList` object.  Its lookup behaviour lives in `Env`;
the mutable `closest` flag is the piece of state `fill_data` writes. -/
structure LineListS where
  closest : Bool
deriving DecidableEq

/-- Python exceptions raised by `spectralline.py`, by site. -/
inductive Err where
  /-- `cut_spec`: "Need to set spectrum!" -/
  | noSpectrum
  /-- `cut_spec`: "Expecting a unit!" -/
  | unitlessDispersion
  /-- `cut_spec`: "Need to set wvlim or vlim!" -/
  | noWindow
  /-- `measure_ew`: "Not ready for this flag" -/
  | badFlag (flg : Nat)
  /-- `generate_voigt`: "Need to initialize log column density in attrib" -/
  | uninitColumn
  /-- `generate_voigt`: "Need to initialize Doppler parameter in attrib" -/
  | uninitDoppler
  /-- `generate_voigt`: "You must provide a wavelength array" -/
  | noWaveSource
  /-- `many_abslines`: `IndexError` from `all_wrest[0]` on an empty list -/
  | emptyInput
deriving DecidableEq

/-- External numeric collaborators, opaque to every claim. -/
structure Env where
  /-- `linetools.analysis.utils.box_ew ((wv, fx, sig))` -/
  box_ew : Arr → Arr → Arr → ℚ × ℚ
  /-- `linetools.analysis.utils.gaussian_ew ((wv, fx, sig), ltype, initial_guesses)` -/
  gaussian_ew : Arr → Arr → Arr → Option (ℚ × ℚ × ℚ) → ℚ × ℚ
  /-- `linetools.analysis.absline.aodm ((velo, fx, sig), (wrest, fval))` -/
  aodm : Arr → Arr → Arr → ℚ → ℚ → ℚ × ℚ × Bool
  /-- `linetools.analysis.absline.log_clm (attrib)` -/
  log_clm : Attrib → ℚ × ℚ
  /-- `linetools.analysis.voigt.voigt_from_abslines (wave, line)` -/
  voigt : Arr → AbsLine → Arr
  /-- `SkyCoord.separation`, in arcseconds -/
  sep : Coord → Coord → ℚ
  /-- `LineList.__getitem__` by rest wavelength, given the list's
  `closest` flag -/
  lookup : Bool → ℚ → AtomData

/-- numpy fancy indexing `xs[pix]` (all claims' pixel ranges are
in-bounds; out-of-range indices default to 0). -/
def slice (xs : Arr) (pix : List Nat) : Arr :=
  pix.map (fun i => xs.getD i 0)

/-- `np.sum(wvlim.value > 0.)` is truthy: some component strictly
positive. -/
def nontrivWv (wvlim : ℚ × ℚ) : Bool :=
  (0 < wvlim.1) || (0 < wvlim.2)

/-- `np.sum(np.abs(vlim.value) > 0.)` is truthy: some component
non-zero. -/
def nontrivV (vlim : ℚ × ℚ) : Bool :=
  !(vlim.1 = 0 ∧ vlim.2 = 0 : Bool)

/-- `SpectralLine.cut_spec(normalize)` (the `relvel` keyword is unused by
the callers modelled here and left out).  Returns the flux, error,
wavelength and velocity slices, together with the updated line: `analy`
gains the cached `pix`, and the attached spectrum's `velo` attribute is
overwritten (an effect on the shared spectrum object). -/
def cut_spec (line : AbsLine) (normalize : Bool) :
    Except Err ((Arr × Arr × Arr × Arr) × AbsLine) :=
  match line.analy.spec with
  | none => .error .noSpectrum
  | some s =>
    if s.unitless then .error .unitlessDispersion
    else
      let pixE : Except Err (List Nat) :=
        if nontrivWv line.analy.wvlim then
          .ok (s.pixMinmaxWv line.analy.wvlim)
        else if nontrivV line.analy.vlim then
          .ok (s.pixMinmaxV line.attrib.z line.wrest line.analy.vlim)
        else .error .noWindow
      match pixE with
      | .error e => .error e
      | .ok pix =>
        let fx := slice s.flux pix
        let sg := slice s.sig pix
        let wave := slice s.dispersion pix
        let s1 := { s with velo := s.relativeVel (line.wrest * (1 + line.attrib.z)) }
        let velo := slice s1.velo pix
        let line1 := { line with analy := { line.analy with pix := some pix, spec := some s1 } }
        match normalize, s1.conti with
        | true, some c =>
          .ok ((slice c pix |> List.zipWith (· / ·) fx,
                slice c pix |> List.zipWith (· / ·) sg, wave, velo), line1)
        | true, none => .ok ((fx, sg, wave, velo), line1)
        | false, _ => .ok ((fx, sg, wave, velo), line1)

/-- `SpectralLine.measure_ew(flg, initial_guesses)`: cut the spectrum
normalized, run the boxcar (`flg = 1`) or Gaussian (`flg = 2`)
estimator, write `attrib.EW` / `attrib.sigEW`. -/
def measure_ew (env : Env) (line : AbsLine) (flg : Nat)
    (guesses : Option (ℚ × ℚ × ℚ)) : Except Err AbsLine :=
  match cut_spec line true with
  | .error e => .error e
  | .ok ((fx, sg, wave, _velo), line1) =>
    match (if flg = 1 then .ok (env.box_ew wave fx sg)
           else if flg = 2 then .ok (env.gaussian_ew wave fx sg guesses)
           else .error (Err.badFlag flg) : Except Err (ℚ × ℚ)) with
    | .error e => .error e
    | .ok ew =>
      .ok { line1 with attrib := { line1.attrib with EW := ew.1, sigEW := ew.2 } }

/-- `SpectralLine.measure_restew(**kwargs)`: a standard `measure_ew` call,
then `EW` and `sigEW` are each divided by `(attrib.z + 1)` in place. -/
def measure_restew (env : Env) (line : AbsLine) (flg : Nat)
    (guesses : Option (ℚ × ℚ × ℚ)) : Except Err AbsLine :=
  match measure_ew env line flg guesses with
  | .error e => .error e
  | .ok l1 =>
    let l2 := { l1 with attrib := { l1.attrib with EW := l1.attrib.EW / (l1.attrib.z + 1) } }
    .ok { l2 with attrib := { l2.attrib with sigEW := l2.attrib.sigEW / (l2.attrib.z + 1) } }

/-- `AbsLine.measure_aodm(nsig)`: cut the spectrum normalized, run the
AODM estimator on the velocity slice, set `flagN` (2 saturated / 1
detection / 3 upper limit), write `N`, `sigN`, then the log transform of
the updated attrib. -/
def measure_aodm (env : Env) (line : AbsLine) (nsig : ℚ) : Except Err AbsLine :=
  match cut_spec line true with
  | .error e => .error e
  | .ok ((fx, sg, _wave, velo), line1) =>
    let r := env.aodm velo fx sg line1.wrest line1.data.f
    let N := r.1
    let sigN := r.2.1
    let flg_sat := r.2.2
    let a1 :=
      if flg_sat then { line1.attrib with flagN := 2 }
      else if N > nsig * sigN then { line1.attrib with flagN := 1 }
      else { line1.attrib with flagN := 3 }
    let a2 := { a1 with N := N, sigN := sigN }
    let lg := env.log_clm a2
    .ok { line1 with attrib := { a2 with logN := lg.1, sig_logN := lg.2 } }

/-- `AbsLine.generate_voigt(wave)`: validate `attrib.N ≥ 1` then
`attrib.b ≥ 1 km/s`; take the wavelength grid from the argument or from
the attached spectrum's dispersion, else fail; delegate to the Voigt
synthesis. -/
def generate_voigt (env : Env) (line : AbsLine) (wave : Option Arr) :
    Except Err Arr :=
  if line.attrib.N < 1 then .error .uninitColumn
  else if line.attrib.b < 1 then .error .uninitDoppler
  else
    match wave with
    | some w => .ok (env.voigt w line)
    | none =>
      match line.analy.spec with
      | some s => .ok (env.voigt s.dispersion line)
      | none => .error .noWaveSource

/-- `np.allclose(a, b, rtol, atol)` for scalars:
`|a - b| ≤ atol + rtol * |b|`. -/
def allclose (a b rtol atol : ℚ) : Bool :=
  |a - b| ≤ atol + rtol * |b|

/-- The `inp` argument of `ismatch`: another line or a `(z, wrest)`
tuple. -/
inductive MatchInp where
  | line (o : AbsLine)
  | pair (z : ℚ) (wrest : ℚ)

/-- `SpectralLine.ismatch(inp, Zion, RADec)`.  numpy default tolerances:
the wavelength comparison uses `rtol = 1e-5, atol = 1e-8`; the redshift
comparison overrides `rtol = 1e-6` and keeps `atol = 1e-8`. -/
def ismatch (env : Env) (l : AbsLine) (inp : MatchInp)
    (Zion : Option (Int × Int)) (RADec : Option (ℚ × ℚ)) : Bool :=
  let wrest : ℚ := match inp with | .line o => o.wrest | .pair _ w => w
  let z : ℚ := match inp with | .line o => o.attrib.z | .pair zi _ => zi
  let Zion1 : Option (Int × Int) :=
    match inp, Zion with
    | .line o, none => some (o.data.Z, o.data.ion)
    | _, _ => Zion
  let coord : Option Coord :=
    match inp, RADec with
    | .line o, none => some o.attrib.coord
    | _, _ => none
  let ans := allclose l.wrest wrest (1/100000) (1/100000000)
             && allclose l.attrib.z z (1/1000000) (1/100000000)
  let ans :=
    match Zion1 with
    | some zi => ans && decide (l.data.Z = zi.1) && decide (l.data.ion = zi.2)
    | none => ans
  match coord, RADec with
  | none, none => ans
  | some c, _ => ans && decide (env.sep c l.attrib.coord < 1/10)
  | none, some rd => ans && decide (env.sep ⟨rd.1, rd.2⟩ l.attrib.coord < 1/10)

/-- The `attrib` dict right after `AbsLine.fill_data` (init values from
`SpectralLine.__init__` plus the absorption-line additions). -/
def initAttrib (z : ℚ) : Attrib :=
  { coord := ⟨0, 0⟩, z := z, zsig := 0, v := 0, vsig := 0,
    EW := 0, sigEW := 0, flgEW := 0,
    N := 0, Nsig := 0, flagN := 0, b := 0, bsig := 0,
    sigN := 0, logN := 0, sig_logN := 0 }

/-- The `analy` dict right after `AbsLine.fill_data`. -/
def initAnaly (nm : String) : Analy :=
  { spec := none, wvlim := (0, 0), vlim := (0, 0), do_analysis := 1,
    pix := none, flg_eye := 0, flg_limit := 0, datafile := "", aname := nm }

/-- `AbsLine(wrest, linelist=llist, closest=closest, z=z)` for an
already-resolved `LineList` object and a `Quantity` rest wavelength: it
runs `fill_data`, which first overwrites the shared list's `closest`
flag, then looks the transition up and fills the entity.  Returns the
new line together with the (mutated) line-list object. -/
def mkAbsLine (env : Env) (llist : LineListS) (wrestIn z : ℚ)
    (closest : Bool) : AbsLine × LineListS :=
  let llist1 : LineListS := { llist with closest := closest }
  let d := env.lookup llist1.closest wrestIn
  ({ wrest := d.wrest, trans := d.name, data := d,
     attrib := initAttrib z, analy := initAnaly d.name }, llist1)

/-! ### Bulk constructor `many_abslines`

Object identity matters here (the claims are about deep copies sharing
no mutable state), so entities live on an explicit heap: a `List
AbsLine` where the address of an object is its allocation index and
every construction or `copy.deepcopy` appends one fresh cell. -/

abbrev Heap := List AbsLine

/-- Placeholder object for out-of-range heap reads; never reached in the
proved scenarios (every dict key is a member of the uniq list, every
address a live cell). -/
def dummyLine : AbsLine :=
  { wrest := 0, trans := "", data := { wrest := 0, name := "", Z := 0, ion := 0, f := 0 },
    attrib := initAttrib 0, analy := initAnaly "" }

/-- `np.unique(wrestv)`: the distinct values in ascending order. -/
def npUnique (l : List ℚ) : List ℚ :=
  (List.insertionSort (· ≤ ·) l).dedup

/-- The loop `for iuni in uniq_wrest: adict[iuni] = AbsLine(iuni*unit,
linelist=llist)`: constructs one prototype per distinct value
(allocating it on the heap, threading the shared line-list object) and
records its address under its wavelength key. -/
def buildDict (env : Env) : LineListS → List ℚ → Heap →
    (List (ℚ × Nat) × Heap × LineListS)
  | llist, [], h => ([], h, llist)
  | llist, v :: vs, h =>
    let p := mkAbsLine env llist v 0 false
    let r := buildDict env p.2 vs (h ++ [p.1])
    ((v, h.length) :: r.1, r.2.1, r.2.2)

/-- `adict[iwrestv]`: first entry with the given key (keys are distinct
in the proved scenarios, and always present). -/
def lookupAddr (adict : List (ℚ × Nat)) (v : ℚ) : Nat :=
  match adict.find? (fun p => decide (p.1 = v)) with
  | some p => p.2
  | none => 0

/-- The loop `for iwrestv in wrestv:
abs_lines.append(copy.deepcopy(adict[iwrestv]))`: each iteration reads
the prototype at the dict's address and allocates a fresh deep copy;
returns the addresses of the copies in input order. -/
def copyLoop (adict : List (ℚ × Nat)) : List ℚ → Heap → (List Nat × Heap)
  | [], h => ([], h)
  | v :: vs, h =>
    let obj := (h[lookupAddr adict v]?).getD dummyLine
    let r := copyLoop adict vs (h ++ [obj])
    (h.length :: r.1, r.2)

/-- `many_abslines(all_wrest, llist)`.  An empty input raises
(`all_wrest[0].unit` is read unconditionally).  Otherwise: distinct
values, one prototype each, then one deep copy per input element. -/
def many_abslines (env : Env) (llist : LineListS) (all_wrest : List ℚ)
    (h : Heap) : Except Err (List Nat × Heap × LineListS) :=
  match all_wrest with
  | [] => .error .emptyInput
  | _ :: _ =>
    let uniq := npUnique all_wrest
    let b := buildDict env llist uniq h
    let c := copyLoop b.1 all_wrest b.2.1
    .ok (c.1, c.2, b.2.2)

/-- In-place mutation `line.attrib['N'] = x` on the heap object at
address `a`. -/
def setN (h : Heap) (a : Nat) (x : ℚ) : Heap :=
  let o := (h[a]?).getD dummyLine
  h.set a { o with attrib := { o.attrib with N := x } }

/-- The prototype entity `AbsLine(v*unit, linelist=llist)` built for a
distinct value `v`: independent of the incoming line-list state, since
`fill_data` first forces `closest := False` (the constructor default). -/
def protoLine (env : Env) (v : ℚ) : AbsLine :=
  (mkAbsLine env { closest := false } v 0 false).1

/-! ### Characterization of `cut_spec` -/

/-- The array part of a successful `cut_spec` payload for spectrum `s`
and pixel range `pix`. -/
def cutArrays (line : AbsLine) (normalize : Bool) (s : Spectrum)
    (pix : List Nat) : Arr × Arr × Arr × Arr :=
  let fx := slice s.flux pix
  let sg := slice s.sig pix
  let wave := slice s.dispersion pix
  let velo := slice (s.relativeVel (line.wrest * (1 + line.attrib.z))) pix
  match normalize, s.conti with
  | true, some c =>
    (slice c pix |> List.zipWith (· / ·) fx,
     slice c pix |> List.zipWith (· / ·) sg, wave, velo)
  | _, _ => (fx, sg, wave, velo)

/-- The updated line of a successful `cut_spec` payload: the cached pixel
range, and the spectrum with its `velo` attribute overwritten. -/
def cutLine (line : AbsLine) (s : Spectrum) (pix : List Nat) : AbsLine :=
  { line with
    analy := { line.analy with
               pix := some pix
               spec := some { s with
                              velo := s.relativeVel (line.wrest * (1 + line.attrib.z)) } } }

/-- The success payload of `cut_spec` for spectrum `s` and pixel range
`pix`. -/
def cutRes (line : AbsLine) (normalize : Bool) (s : Spectrum) (pix : List Nat) :
    (Arr × Arr × Arr × Arr) × AbsLine :=
  (cutArrays line normalize s pix, cutLine line s pix)

/-- `cut_spec` with no attached spectrum fails first. -/
lemma cut_spec_none {line : AbsLine} (hs : line.analy.spec = none)
    (normalize : Bool) : cut_spec line normalize = .error .noSpectrum := by
  unfold cut_spec
  rw [hs]

/-- Flattened form of `cut_spec` with a spectrum attached: the remaining
precondition checks in source order, then the success payload. -/
lemma cut_spec_some {line : AbsLine} {s : Spectrum}
    (hs : line.analy.spec = some s) (normalize : Bool) :
    cut_spec line normalize =
      if s.unitless then .error .unitlessDispersion
      else if nontrivWv line.analy.wvlim then
        .ok (cutRes line normalize s (s.pixMinmaxWv line.analy.wvlim))
      else if nontrivV line.analy.vlim then
        .ok (cutRes line normalize s
              (s.pixMinmaxV line.attrib.z line.wrest line.analy.vlim))
      else .error .noWindow := by
  unfold cut_spec cutRes cutArrays cutLine
  rw [hs]
  by_cases hu : s.unitless = true
  · simp [hu]
  · by_cases hw : nontrivWv line.analy.wvlim = true
    · cases normalize <;> rcases hc : s.conti with _ | c <;> simp [hu, hw, hc]
    · by_cases hv : nontrivV line.analy.vlim = true
      · cases normalize <;> rcases hc : s.conti with _ | c <;> simp [hu, hw, hv, hc]
      · simp [hu, hw, hv]

/-- Inversion: a successful `cut_spec` call means a spectrum was
attached, its dispersion had a unit, some window was set, and the result
is the payload for the selected pixel range (wavelength interval
preferred). -/
lemma cut_spec_ok_inv {line : AbsLine} {normalize : Bool}
    {r : Arr × Arr × Arr × Arr} {l' : AbsLine}
    (h : cut_spec line normalize = .ok (r, l')) :
    ∃ s, line.analy.spec = some s ∧ s.unitless = false ∧
      ∃ pix, (r, l') = cutRes line normalize s pix := by
  rcases hs : line.analy.spec with _ | s
  · rw [cut_spec_none hs] at h
    cases h
  · rw [cut_spec_some hs] at h
    by_cases hu : s.unitless = true
    · rw [if_pos hu] at h
      cases h
    · by_cases hw : nontrivWv line.analy.wvlim = true
      · rw [if_neg hu, if_pos hw] at h
        exact ⟨s, rfl, by simpa using hu, _, (Except.ok.injEq _ _).mp h.symm⟩
      · by_cases hv : nontrivV line.analy.vlim = true
        · rw [if_neg hu, if_neg hw, if_pos hv] at h
          exact ⟨s, rfl, by simpa using hu, _, (Except.ok.injEq _ _).mp h.symm⟩
        · rw [if_neg hu, if_neg hw, if_neg hv] at h
          cases h

/-! ### Concrete instances used by witnesses and counterexamples -/

/-- A concrete environment (the claims hold for every environment; this
one makes the witnesses computable). -/
def envW : Env :=
  { box_ew := fun wv _ sg => (wv.headD 0, sg.headD 0)
    gaussian_ew := fun wv _ _ _ => (wv.headD 0 + 1, 2)
    aodm := fun _ _ _ _ _ => (10, 2, false)
    log_clm := fun a => (a.N + a.sigN, a.sigN)
    voigt := fun w _ => w
    sep := fun a b => |a.ra - b.ra| + |a.dec - b.dec|
    lookup := fun _ v => { wrest := v, name := "T", Z := 1, ion := 1, f := 1/2 } }

/-- A two-pixel spectrum with a continuum. -/
def specW : Spectrum :=
  { flux := [2, 3], sig := [1, 1], dispersion := [100, 101], unitless := false,
    conti := some [2, 2], velo := [], pixMinmaxWv := fun _ => [0, 1],
    pixMinmaxV := fun _ _ _ => [1], relativeVel := fun _ => [5, 6] }

/-- The same spectrum without a continuum attribute. -/
def specNC : Spectrum := { specW with conti := none }

def dataW : AtomData :=
  { wrest := 121567/100, name := "HI 1215", Z := 1, ion := 1, f := 416/1000 }

/-- A line at redshift 1 with `specW` attached and the wavelength window
set. -/
def lineW : AbsLine :=
  { wrest := 121567/100, trans := "HI 1215", data := dataW,
    attrib := initAttrib 1,
    analy := { initAnaly "HI 1215" with spec := some specW, wvlim := (1, 2) } }

/-- `lineW` with the continuum-free spectrum. -/
def lineNC : AbsLine :=
  { lineW with analy := { lineW.analy with spec := some specNC } }

/-! ### Helper lemmas on the measurement operations -/

lemma cut_spec_attrib {line : AbsLine} {normalize : Bool}
    {r : Arr × Arr × Arr × Arr} {l' : AbsLine}
    (h : cut_spec line normalize = .ok (r, l')) : l'.attrib = line.attrib := by
  obtain ⟨s, _, _, pix, hres⟩ := cut_spec_ok_inv h
  have h2 : l' = cutLine line s pix := congrArg Prod.snd hres
  rw [h2]
  rfl

/-- Inversion for `measure_ew`: a successful call is a successful
normalized cut followed by one estimator call, written into `EW` /
`sigEW`. -/
lemma measure_ew_ok_inv {env : Env} {line : AbsLine} {flg : Nat}
    {guesses : Option (ℚ × ℚ × ℚ)} {l1 : AbsLine}
    (h : measure_ew env line flg guesses = .ok l1) :
    ∃ (fx sg wave velo : Arr) (l' : AbsLine) (ew : ℚ × ℚ),
      cut_spec line true = .ok ((fx, sg, wave, velo), l') ∧
      l1 = { l' with attrib := { l'.attrib with EW := ew.1, sigEW := ew.2 } } := by
  unfold measure_ew at h
  split at h
  · cases h
  · rename_i fx sg wave velo l' heq
    split at h
    · cases h
    · rename_i ew heq2
      obtain rfl := (Except.ok.injEq _ _).mp h
      exact ⟨fx, sg, wave, velo, l', ew, heq, rfl⟩

lemma measure_ew_z {env : Env} {line : AbsLine} {flg : Nat}
    {guesses : Option (ℚ × ℚ × ℚ)} {l1 : AbsLine}
    (h : measure_ew env line flg guesses = .ok l1) :
    l1.attrib.z = line.attrib.z := by
  obtain ⟨fx, sg, wave, velo, l', ew, hc, hl⟩ := measure_ew_ok_inv h
  have h2 : l'.attrib = line.attrib := cut_spec_attrib hc
  have h3 : l'.attrib.z = line.attrib.z := congrArg Attrib.z h2
  rw [hl]
  exact h3

/-! ### Claim C1 -/

/-- C1: for every line, environment and keyword arguments,
`measure_restew` produces exactly the `measure_ew` result with both
`attrib.EW` and `attrib.sigEW` divided by `(1 + z)` for the redshift `z`
stored on the line (errors included: both calls fail identically); and
when `z = 0` the two calls produce identical results. -/
theorem claim1_restew_is_ew_over_one_plus_z (env : Env) (line : AbsLine)
    (flg : Nat) (guesses : Option (ℚ × ℚ × ℚ)) :
    measure_restew env line flg guesses =
      (measure_ew env line flg guesses).map (fun l =>
        { l with attrib := { l.attrib with
                             EW := l.attrib.EW / (line.attrib.z + 1)
                             sigEW := l.attrib.sigEW / (line.attrib.z + 1) } }) ∧
    (line.attrib.z = 0 →
      measure_restew env line flg guesses = measure_ew env line flg guesses) := by
  have main : measure_restew env line flg guesses =
      (measure_ew env line flg guesses).map (fun l =>
        { l with attrib := { l.attrib with
                             EW := l.attrib.EW / (line.attrib.z + 1)
                             sigEW := l.attrib.sigEW / (line.attrib.z + 1) } }) := by
    unfold measure_restew
    rcases hme : measure_ew env line flg guesses with _ | l1
    · rfl
    · have hz := measure_ew_z hme
      simp only [Except.map]
      rw [← hz]
  refine ⟨main, fun h0 => ?_⟩
  rw [main]
  rcases hme : measure_ew env line flg guesses with _ | l1
  · rfl
  · have hz := measure_ew_z hme
    simp only [Except.map, Except.ok.injEq]
    rw [h0]
    norm_num

/-- `lineW` at redshift 0. -/
def lineZ0 : AbsLine := { lineW with attrib := initAttrib 0 }

/-- Witness for C1: at redshift 0 the two measurements agree on a
concrete line. -/
theorem claim1_witness :
    measure_restew envW lineZ0 1 none = measure_ew envW lineZ0 1 none :=
  (claim1_restew_is_ew_over_one_plus_z envW lineZ0 1 none).2 rfl

/-! ### Claim C2 -/

/-- The `attrib` updates performed by `measure_aodm` after the AODM
estimator returned `r = (N, sigN, flg_sat)`: the detection flag, the
linear column and error, then the log transform of the updated dict. -/
def aodmAttrib (env : Env) (nsig : ℚ) (r : ℚ × ℚ × Bool) (a : Attrib) : Attrib :=
  let a1 := if r.2.2 then { a with flagN := 2 }
            else if r.1 > nsig * r.2.1 then { a with flagN := 1 }
            else { a with flagN := 3 }
  let a2 := { a1 with N := r.1, sigN := r.2.1 }
  { a2 with logN := (env.log_clm a2).1, sig_logN := (env.log_clm a2).2 }

lemma measure_aodm_eq (env : Env) (line : AbsLine) (nsig : ℚ)
    {fx sg wave velo : Arr} {l1 : AbsLine}
    (hc : cut_spec line true = .ok ((fx, sg, wave, velo), l1)) :
    measure_aodm env line nsig =
      .ok { l1 with
            attrib := aodmAttrib env nsig (env.aodm velo fx sg l1.wrest l1.data.f)
                        l1.attrib } := by
  unfold measure_aodm aodmAttrib
  rw [hc]

/-- C2: whenever the normalized cut succeeds and the AODM estimator
returns `(N, sigN, sat)` on the extracted window, `measure_aodm`
succeeds; the resulting `flagN` is 2 (saturated) whenever `sat` is set
regardless of `nsig`, else 1 (detection) iff `N > nsig * sigN`, else 3
(upper limit); and the result carries `N`, `sigN` and the log transform
of the updated attribute dict. -/
theorem claim2_aodm_detection_policy (env : Env) (line : AbsLine) (nsig : ℚ)
    (fx sg wave velo : Arr) (l1 : AbsLine) (N sigN : ℚ) (sat : Bool)
    (hc : cut_spec line true = .ok ((fx, sg, wave, velo), l1))
    (ha : env.aodm velo fx sg line.wrest line.data.f = (N, sigN, sat)) :
    ∃ l2, measure_aodm env line nsig = .ok l2 ∧
      (sat = true → l2.attrib.flagN = 2) ∧
      (sat = false → N > nsig * sigN → l2.attrib.flagN = 1) ∧
      (sat = false → ¬(N > nsig * sigN) → l2.attrib.flagN = 3) ∧
      l2.attrib.N = N ∧ l2.attrib.sigN = sigN ∧
      l2.attrib.logN =
        (env.log_clm { line.attrib with
                       flagN := l2.attrib.flagN, N := N, sigN := sigN }).1 ∧
      l2.attrib.sig_logN =
        (env.log_clm { line.attrib with
                       flagN := l2.attrib.flagN, N := N, sigN := sigN }).2 := by
  obtain ⟨s, hs, hu, pix, hres⟩ := cut_spec_ok_inv hc
  have hl1 : l1 = cutLine line s pix := congrArg Prod.snd hres
  have hw : l1.wrest = line.wrest := by rw [hl1]; rfl
  have hd : l1.data = line.data := by rw [hl1]; rfl
  have hat : l1.attrib = line.attrib := by rw [hl1]; rfl
  refine ⟨_, measure_aodm_eq env line nsig hc, ?_⟩
  rw [hw, hd, hat, ha]
  unfold aodmAttrib
  rcases sat with _ | _
  · by_cases hdet : N > nsig * sigN
    · simp [hdet]
    · simp [hdet]
  · simp

/-- Witness for C2: a concrete unsaturated detection (`N = 10`,
`sigN = 2`, `nsig = 3`). -/
theorem claim2_witness :
    ∃ l2, measure_aodm envW lineW 3 = .ok l2 ∧
      l2.attrib.flagN = 1 ∧ l2.attrib.N = 10 ∧ l2.attrib.sigN = 2 := by
  obtain ⟨l2, h1, _, hdet, _, hN, hsig, _⟩ :=
    claim2_aodm_detection_policy envW lineW 3 [1, 3/2] [1/2, 1/2] [100, 101]
      [5, 6] (cutLine lineW specW [0, 1]) 10 2 false
      (by norm_num [cut_spec, lineW, specW, initAnaly, initAttrib, nontrivWv,
        nontrivV, slice, cutLine]) rfl
  exact ⟨l2, h1, hdet rfl (by norm_num), hN, hsig⟩

/-! ### Claim C3 -/

/-- The only write any measurement performs on the shared spectrum
object: its `velo` attribute is overwritten with the relative-velocity
array anchored at the line's redshifted rest wavelength.  All data
fields (`flux`, `sig`, `dispersion`, the unit flag, the continuum and
the lookup methods) are carried over unchanged. -/
def specOnlyVelo (line l' : AbsLine) : Prop :=
  ∃ s, line.analy.spec = some s ∧
    l'.analy.spec = some { s with velo := s.relativeVel (line.wrest * (1 + line.attrib.z)) }

/-- C3 (amended): during measurement the core never touches the
atomic-data catalog, and the only field of the shared spectrum object it
writes is `velo`, which `cut_spec` — and hence every measurement —
overwrites; `cut_spec` leaves the line's measured attributes unchanged. -/
theorem claim3_amended_measurement_effects :
    (∀ line normalize r l', cut_spec line normalize = .ok (r, l') →
       specOnlyVelo line l' ∧ l'.attrib = line.attrib) ∧
    (∀ env line flg guesses l', measure_ew env line flg guesses = .ok l' →
       specOnlyVelo line l') ∧
    (∀ env line flg guesses l', measure_restew env line flg guesses = .ok l' →
       specOnlyVelo line l') ∧
    (∀ env line nsig l', measure_aodm env line nsig = .ok l' →
       specOnlyVelo line l') := by
  have hcut : ∀ (line : AbsLine) (normalize : Bool) r l',
      cut_spec line normalize = .ok (r, l') →
      specOnlyVelo line l' ∧ l'.attrib = line.attrib := by
    intro line normalize r l' h
    obtain ⟨s, hs, _, pix, hres⟩ := cut_spec_ok_inv h
    have hl : l' = cutLine line s pix := congrArg Prod.snd hres
    exact ⟨⟨s, hs, by rw [hl]; rfl⟩, by rw [hl]; rfl⟩
  have hew : ∀ env line flg guesses l', measure_ew env line flg guesses = .ok l' →
      specOnlyVelo line l' := by
    intro env line flg guesses l' h
    obtain ⟨fx, sg, wave, velo, l1, ew, hc, hl⟩ := measure_ew_ok_inv h
    obtain ⟨⟨s, hs, hsp⟩, _⟩ := hcut line true _ l1 hc
    exact ⟨s, hs, by rw [hl]; exact hsp⟩
  refine ⟨hcut, hew, ?_, ?_⟩
  · intro env line flg guesses l' h
    unfold measure_restew at h
    split at h
    · cases h
    · rename_i l1 heq
      obtain rfl := (Except.ok.injEq _ _).mp h
      obtain ⟨s, hs, hsp⟩ := hew env line flg guesses l1 heq
      exact ⟨s, hs, hsp⟩
  · intro env line nsig l' h
    rcases hc : cut_spec line true with _ | ⟨⟨fx, sg, wave, velo⟩, l1⟩
    · rw [measure_aodm, hc] at h
      cases h
    · rw [measure_aodm_eq env line nsig hc] at h
      obtain rfl := (Except.ok.injEq _ _).mp h
      obtain ⟨⟨s, hs, hsp⟩, _⟩ := hcut line true _ l1 hc
      exact ⟨s, hs, hsp⟩

/-- Counterexample to C3 as stated: `cut_spec` does write a field of the
externally attached spectrum object — on `lineW` the stored spectrum's
`velo` goes from `[]` to `[5, 6]`. -/
theorem claim3_counterexample :
    lineW.analy.spec = some specW ∧
    cut_spec lineW false =
      .ok (([2, 3], [1, 1], [100, 101], [5, 6]), cutLine lineW specW [0, 1]) ∧
    (cutLine lineW specW [0, 1]).analy.spec = some { specW with velo := [5, 6] } ∧
    specW.velo = [] ∧ ([] : Arr) ≠ [5, 6] := by
  refine ⟨rfl, ?_, rfl, rfl, by simp⟩
  norm_num [cut_spec, lineW, specW, initAnaly, initAttrib, nontrivWv, nontrivV,
    slice, cutLine]

/-- Witness for C3 (amended): on `lineW`, a successful cut rewrites only
the stored spectrum's `velo` and keeps `attrib`. -/
theorem claim3_witness :
    specOnlyVelo lineW (cutLine lineW specW [0, 1]) ∧
    (cutLine lineW specW [0, 1]).attrib = lineW.attrib :=
  claim3_amended_measurement_effects.1 lineW false
    (([2, 3], [1, 1], [100, 101], [5, 6])) (cutLine lineW specW [0, 1])
    (by norm_num [cut_spec, lineW, specW, initAnaly, initAttrib, nontrivWv,
      nontrivV, slice, cutLine])

/-! ### Claim C4 -/

/-- C4 (amended): `cut_spec` checks its preconditions in source order —
no attached spectrum, then a unitless dispersion axis, then no window —
where the wavelength interval counts as set when **some component is
strictly positive** and the velocity interval counts as set when some
component is non-zero; a set wavelength interval takes precedence over
the velocity interval, and on success the selected pixel range is cached
in `analy.pix`. -/
theorem claim4_amended_cut_spec_preconditions (line : AbsLine) (normalize : Bool) :
    (cut_spec line normalize = .error .noSpectrum ↔ line.analy.spec = none) ∧
    (∀ s, line.analy.spec = some s →
      ((cut_spec line normalize = .error .unitlessDispersion ↔ s.unitless = true) ∧
       (s.unitless = false →
         ((cut_spec line normalize = .error .noWindow ↔
             (nontrivWv line.analy.wvlim = false ∧ nontrivV line.analy.vlim = false)) ∧
          (nontrivWv line.analy.wvlim = true →
            cut_spec line normalize =
              .ok (cutRes line normalize s (s.pixMinmaxWv line.analy.wvlim)) ∧
            (cutRes line normalize s (s.pixMinmaxWv line.analy.wvlim)).2.analy.pix =
              some (s.pixMinmaxWv line.analy.wvlim)) ∧
          (nontrivWv line.analy.wvlim = false → nontrivV line.analy.vlim = true →
            cut_spec line normalize =
              .ok (cutRes line normalize s
                    (s.pixMinmaxV line.attrib.z line.wrest line.analy.vlim)) ∧
            (cutRes line normalize s
                (s.pixMinmaxV line.attrib.z line.wrest line.analy.vlim)).2.analy.pix =
              some (s.pixMinmaxV line.attrib.z line.wrest line.analy.vlim)))))) := by
  rcases hs : line.analy.spec with _ | s
  · rw [cut_spec_none hs]
    exact ⟨by simp, fun s hs2 => absurd hs2 (by simp)⟩
  · rw [cut_spec_some hs]
    refine ⟨?_, fun s' hs2 => ?_⟩
    · rcases hu : s.unitless with _ | _
      · rcases hw : nontrivWv line.analy.wvlim with _ | _
        · rcases hv : nontrivV line.analy.vlim with _ | _ <;> simp [hu, hw, hv]
        · simp [hu, hw]
      · simp [hu]
    · obtain rfl : s = s' := (Option.some.injEq _ _).mp hs2
      refine ⟨?_, fun hu => ⟨?_, fun hw => ?_, fun hw hv => ?_⟩⟩
      · rcases hu : s.unitless with _ | _
        · rcases hw : nontrivWv line.analy.wvlim with _ | _
          · rcases hv : nontrivV line.analy.vlim with _ | _ <;> simp [hu, hw, hv]
          · simp [hu, hw]
        · simp [hu]
      · rw [if_neg (by simp [hu])]
        rcases hw : nontrivWv line.analy.wvlim with _ | _
        · rcases hv : nontrivV line.analy.vlim with _ | _ <;> simp [hw, hv]
        · simp [hw]
      · rw [if_neg (by simp [hu]), if_pos hw]
        exact ⟨rfl, rfl⟩
      · rw [if_neg (by simp [hu]), if_neg (by simp [hw]), if_pos hv]
        exact ⟨rfl, rfl⟩

/-- `lineW` with a wavelength interval whose components are negative or
zero (so non-zero, but with no strictly positive component) and a zero
velocity interval. -/
def lineNeg : AbsLine :=
  { lineW with analy := { lineW.analy with wvlim := (-1, 0), vlim := (0, 0) } }

/-- Counterexample to C4 as stated: `lineNeg`'s wavelength interval is
non-zero, yet `cut_spec` fails with the no-window error, because the
source tests `wvlim > 0` componentwise, not `wvlim ≠ 0`. -/
theorem claim4_counterexample :
    cut_spec lineNeg false = .error .noWindow ∧
    lineNeg.analy.wvlim ≠ (0, 0) ∧ lineNeg.analy.spec = some specW ∧
    specW.unitless = false := by
  refine ⟨?_, ?_, rfl, rfl⟩
  · norm_num [cut_spec, lineNeg, lineW, specW, initAnaly, initAttrib,
      nontrivWv, nontrivV]
  · norm_num [lineNeg, lineW, initAnaly]

/-- Witness for C4 (amended): on `lineW` (spectrum attached, unit ok,
wavelength window set) the cut succeeds and caches `pix = [0, 1]`. -/
theorem claim4_witness :
    cut_spec lineW false = .ok (cutRes lineW false specW [0, 1]) ∧
    (cutRes lineW false specW [0, 1]).2.analy.pix = some [0, 1] :=
  (((claim4_amended_cut_spec_preconditions lineW false).2 specW rfl).2 rfl).2.1
    (by norm_num [nontrivWv, lineW, initAnaly])

/-! ### Claim C5 -/

/-- The rest wavelength `ismatch` compares against. -/
def inpWrest : MatchInp → ℚ
  | .line o => o.wrest
  | .pair _ w => w

/-- The redshift `ismatch` compares against. -/
def inpZ : MatchInp → ℚ
  | .line o => o.attrib.z
  | .pair z _ => z

/-- The (Z, ion) pair `ismatch` checks, if any: the argument when
supplied, else derived from a line input. -/
def effZion : MatchInp → Option (Int × Int) → Option (Int × Int)
  | .line o, none => some (o.data.Z, o.data.ion)
  | _, zi => zi

/-- The sky coordinate `ismatch` checks, if any: a line input's own
coordinate when `RADec` is not supplied, else the supplied `RADec`. -/
def effCoord : MatchInp → Option (ℚ × ℚ) → Option Coord
  | .line o, none => some o.attrib.coord
  | _, some rd => some ⟨rd.1, rd.2⟩
  | .pair _ _, none => none

/-- The wavelength/redshift conjunction at the head of every `ismatch`
answer. -/
def baseMatch (l : AbsLine) (z w : ℚ) : Bool :=
  allclose l.wrest w (1/100000) (1/100000000) &&
  allclose l.attrib.z z (1/1000000) (1/100000000)

lemma ismatch_pair_nn (env : Env) (l : AbsLine) (z w : ℚ) :
    ismatch env l (.pair z w) none none = baseMatch l z w := rfl

lemma ismatch_pair_zn (env : Env) (l : AbsLine) (z w : ℚ) (zi : Int × Int) :
    ismatch env l (.pair z w) (some zi) none =
      (baseMatch l z w && decide (l.data.Z = zi.1) && decide (l.data.ion = zi.2)) := rfl

lemma ismatch_pair_nr (env : Env) (l : AbsLine) (z w : ℚ) (rd : ℚ × ℚ) :
    ismatch env l (.pair z w) none (some rd) =
      (baseMatch l z w && decide (env.sep ⟨rd.1, rd.2⟩ l.attrib.coord < 1/10)) := rfl

lemma ismatch_pair_zr (env : Env) (l : AbsLine) (z w : ℚ) (zi : Int × Int)
    (rd : ℚ × ℚ) :
    ismatch env l (.pair z w) (some zi) (some rd) =
      (baseMatch l z w && decide (l.data.Z = zi.1) && decide (l.data.ion = zi.2) &&
       decide (env.sep ⟨rd.1, rd.2⟩ l.attrib.coord < 1/10)) := rfl

lemma ismatch_line_nn (env : Env) (l o : AbsLine) :
    ismatch env l (.line o) none none =
      (baseMatch l o.attrib.z o.wrest && decide (l.data.Z = o.data.Z) &&
       decide (l.data.ion = o.data.ion) &&
       decide (env.sep o.attrib.coord l.attrib.coord < 1/10)) := rfl

lemma ismatch_line_zn (env : Env) (l o : AbsLine) (zi : Int × Int) :
    ismatch env l (.line o) (some zi) none =
      (baseMatch l o.attrib.z o.wrest && decide (l.data.Z = zi.1) &&
       decide (l.data.ion = zi.2) &&
       decide (env.sep o.attrib.coord l.attrib.coord < 1/10)) := rfl

lemma ismatch_line_nr (env : Env) (l o : AbsLine) (rd : ℚ × ℚ) :
    ismatch env l (.line o) none (some rd) =
      (baseMatch l o.attrib.z o.wrest && decide (l.data.Z = o.data.Z) &&
       decide (l.data.ion = o.data.ion) &&
       decide (env.sep ⟨rd.1, rd.2⟩ l.attrib.coord < 1/10)) := rfl

lemma ismatch_line_zr (env : Env) (l o : AbsLine) (zi : Int × Int) (rd : ℚ × ℚ) :
    ismatch env l (.line o) (some zi) (some rd) =
      (baseMatch l o.attrib.z o.wrest && decide (l.data.Z = zi.1) &&
       decide (l.data.ion = zi.2) &&
       decide (env.sep ⟨rd.1, rd.2⟩ l.attrib.coord < 1/10)) := rfl

/-- C5 (amended): `ismatch` returns true iff the rest wavelengths agree
within the numpy `allclose` default tolerances (`atol = 1e-8` **plus**
`rtol = 1e-5` of the input wavelength — a relative, not absolute,
bound), the redshifts agree within `atol = 1e-8` plus `rtol = 1e-6`, and
every ion-identity / sky-position check that is supplied or derivable
from the input passes; in particular a line always matches the literal
pair of its own stored redshift and rest wavelength. -/
theorem claim5_amended_ismatch (env : Env) (l : AbsLine) (inp : MatchInp)
    (Zion : Option (Int × Int)) (RADec : Option (ℚ × ℚ)) :
    (ismatch env l inp Zion RADec = true ↔
      (|l.wrest - inpWrest inp| ≤ 1/100000000 + (1/100000) * |inpWrest inp| ∧
       |l.attrib.z - inpZ inp| ≤ 1/100000000 + (1/1000000) * |inpZ inp| ∧
       (∀ zi ∈ effZion inp Zion, l.data.Z = zi.1 ∧ l.data.ion = zi.2) ∧
       (∀ c ∈ effCoord inp RADec, env.sep c l.attrib.coord < 1/10))) ∧
    ismatch env l (.pair l.attrib.z l.wrest) none none = true := by
  constructor
  · rcases inp with o | ⟨z, w⟩ <;> rcases Zion with _ | zi <;> rcases RADec with _ | rd
    · rw [ismatch_line_nn]
      simp only [baseMatch, allclose, Bool.and_eq_true, decide_eq_true_eq,
        inpWrest, inpZ, effZion, effCoord, Option.mem_def, Option.some.injEq,
        forall_eq_apply_imp_iff, forall_eq]
      all_goals aesop
    · rw [ismatch_line_nr]
      simp only [baseMatch, allclose, Bool.and_eq_true, decide_eq_true_eq,
        inpWrest, inpZ, effZion, effCoord, Option.mem_def, Option.some.injEq,
        forall_eq_apply_imp_iff, forall_eq]
      all_goals aesop
    · rw [ismatch_line_zn]
      simp only [baseMatch, allclose, Bool.and_eq_true, decide_eq_true_eq,
        inpWrest, inpZ, effZion, effCoord, Option.mem_def, Option.some.injEq,
        forall_eq_apply_imp_iff, forall_eq]
      all_goals aesop
    · rw [ismatch_line_zr]
      simp only [baseMatch, allclose, Bool.and_eq_true, decide_eq_true_eq,
        inpWrest, inpZ, effZion, effCoord, Option.mem_def, Option.some.injEq,
        forall_eq_apply_imp_iff, forall_eq]
      all_goals aesop
    · rw [ismatch_pair_nn]
      simp only [baseMatch, allclose, Bool.and_eq_true, decide_eq_true_eq,
        inpWrest, inpZ, effZion, effCoord, Option.mem_def,
        reduceCtorEq, forall_eq, false_implies, implies_true, and_true]
    · rw [ismatch_pair_nr]
      simp only [baseMatch, allclose, Bool.and_eq_true, decide_eq_true_eq,
        inpWrest, inpZ, effZion, effCoord, Option.mem_def, Option.some.injEq,
        reduceCtorEq, forall_eq, false_implies, implies_true, and_true]
      all_goals aesop
    · rw [ismatch_pair_zn]
      simp only [baseMatch, allclose, Bool.and_eq_true, decide_eq_true_eq,
        inpWrest, inpZ, effZion, effCoord, Option.mem_def, Option.some.injEq,
        reduceCtorEq, forall_eq, false_implies, implies_true, and_true]
      all_goals aesop
    · rw [ismatch_pair_zr]
      simp only [baseMatch, allclose, Bool.and_eq_true, decide_eq_true_eq,
        inpWrest, inpZ, effZion, effCoord, Option.mem_def, Option.some.injEq,
        reduceCtorEq, forall_eq, false_implies, implies_true, and_true]
      all_goals aesop
  · have h1 : allclose l.wrest l.wrest (1/100000) (1/100000000) = true := by
      simp only [allclose, sub_self, abs_zero, decide_eq_true_eq]
      positivity
    have h2 : allclose l.attrib.z l.attrib.z (1/1000000) (1/100000000) = true := by
      simp only [allclose, sub_self, abs_zero, decide_eq_true_eq]
      positivity
    rw [ismatch_pair_nn]
    unfold baseMatch
    rw [Bool.and_eq_true]
    exact ⟨h1, h2⟩

/-- Counterexample to C5 as stated: perturbing the rest wavelength by
`0.01` Angstrom — far beyond any floating-point absolute tolerance —
still matches, because the wavelength comparison uses numpy's default
relative tolerance `1e-5`. -/
theorem claim5_counterexample :
    ismatch envW lineZ0 (.pair 0 (121568/100)) none none = true ∧
    |lineZ0.wrest - 121568/100| = 1/100 ∧ ¬((1/100 : ℚ) ≤ 1/100000000) := by
  have hw : lineZ0.wrest = 121567/100 := rfl
  have hz : lineZ0.attrib.z = 0 := rfl
  have habs : |lineZ0.wrest - 121568/100| = 1/100 := by
    rw [hw, abs_sub_comm, abs_of_pos (by norm_num)]
    norm_num
  refine ⟨?_, habs, by norm_num⟩
  show (allclose lineZ0.wrest (121568/100) (1/100000) (1/100000000) &&
        allclose lineZ0.attrib.z 0 (1/1000000) (1/100000000)) = true
  rw [Bool.and_eq_true]
  constructor
  · simp only [allclose, decide_eq_true_eq, habs]
    rw [abs_of_pos (a := (121568 : ℚ)/100) (by norm_num)]
    norm_num
  · simp only [allclose, hz, decide_eq_true_eq, sub_self, abs_zero]
    norm_num

/-- Witness for C5 (amended): the self-match instance on `lineZ0`. -/
theorem claim5_witness :
    ismatch envW lineZ0 (.pair lineZ0.attrib.z lineZ0.wrest) none none = true :=
  (claim5_amended_ismatch envW lineZ0 (.pair lineZ0.attrib.z lineZ0.wrest)
    none none).2

/-! ### Claim C6 -/

/-- The pixel range `cut_spec` selects for a line whose spectrum is `s`:
the wavelength window when set, else the velocity window, else none. -/
def windowPix (line : AbsLine) (s : Spectrum) : Option (List Nat) :=
  if nontrivWv line.analy.wvlim then some (s.pixMinmaxWv line.analy.wvlim)
  else if nontrivV line.analy.vlim then
    some (s.pixMinmaxV line.attrib.z line.wrest line.analy.vlim)
  else none

/-- C6: with a spectrum attached and a valid window, a normalized cut
divides both the flux and the uncertainty slice by the continuum at the
same pixel indices when a continuum is present; with no continuum, the
call still succeeds and returns both slices completely un-normalized. -/
theorem claim6_continuum_soft_fail (line : AbsLine) (s : Spectrum)
    (pix : List Nat) (hs : line.analy.spec = some s)
    (hu : s.unitless = false) (hp : windowPix line s = some pix) :
    (∀ c, s.conti = some c →
      cut_spec line true =
        .ok ((slice c pix |> List.zipWith (· / ·) (slice s.flux pix),
              slice c pix |> List.zipWith (· / ·) (slice s.sig pix),
              slice s.dispersion pix,
              slice (s.relativeVel (line.wrest * (1 + line.attrib.z))) pix),
             cutLine line s pix)) ∧
    (s.conti = none →
      cut_spec line true =
        .ok ((slice s.flux pix, slice s.sig pix, slice s.dispersion pix,
              slice (s.relativeVel (line.wrest * (1 + line.attrib.z))) pix),
             cutLine line s pix)) := by
  have hcut : cut_spec line true = .ok (cutRes line true s pix) := by
    rw [cut_spec_some hs, if_neg (by simp [hu])]
    unfold windowPix at hp
    by_cases hw : nontrivWv line.analy.wvlim = true
    · rw [if_pos hw]
      rw [if_pos hw] at hp
      obtain rfl := (Option.some.injEq _ _).mp hp
      rfl
    · rw [if_neg hw]
      rw [if_neg hw] at hp
      by_cases hv : nontrivV line.analy.vlim = true
      · rw [if_pos hv]
        rw [if_pos hv] at hp
        obtain rfl := (Option.some.injEq _ _).mp hp
        rfl
      · rw [if_neg hv] at hp
        cases hp
  constructor
  · intro c hc
    rw [hcut]
    unfold cutRes cutArrays
    rw [hc]
  · intro hc
    rw [hcut]
    unfold cutRes cutArrays
    rw [hc]

/-- Witness for C6: the with-continuum and the no-continuum instance on
the concrete spectra. -/
theorem claim6_witness :
    cut_spec lineW true =
      .ok ((slice [2, 2] [0, 1] |> List.zipWith (· / ·) (slice specW.flux [0, 1]),
            slice [2, 2] [0, 1] |> List.zipWith (· / ·) (slice specW.sig [0, 1]),
            slice specW.dispersion [0, 1],
            slice (specW.relativeVel (lineW.wrest * (1 + lineW.attrib.z))) [0, 1]),
           cutLine lineW specW [0, 1]) ∧
    cut_spec lineNC true =
      .ok ((slice specNC.flux [0, 1], slice specNC.sig [0, 1],
            slice specNC.dispersion [0, 1],
            slice (specNC.relativeVel (lineNC.wrest * (1 + lineNC.attrib.z))) [0, 1]),
           cutLine lineNC specNC [0, 1]) :=
  ⟨(claim6_continuum_soft_fail lineW specW [0, 1] rfl rfl
      (by norm_num [windowPix, nontrivWv, lineW, initAnaly, specW])).1 [2, 2] rfl,
   (claim6_continuum_soft_fail lineNC specNC [0, 1] rfl rfl
      (by norm_num [windowPix, nontrivWv, lineNC, lineW, initAnaly, specNC, specW])).2 rfl⟩

/-! ### Claim C7 -/

/-- C7: `generate_voigt` fails with an
uninitialized-profile-parameters error exactly when `attrib.N < 1` or
`attrib.b < 1 km/s`, those checks run before anything else with `N`
first; and when both parameters are fine but no wavelength grid is
supplied and no spectrum is attached, it fails with the
no-wavelength-source error instead of producing a profile. -/
theorem claim7_voigt_parameter_validation (env : Env) (line : AbsLine)
    (wave : Option Arr) :
    ((∃ e, generate_voigt env line wave = .error e ∧
        (e = .uninitColumn ∨ e = .uninitDoppler)) ↔
      (line.attrib.N < 1 ∨ line.attrib.b < 1)) ∧
    (line.attrib.N < 1 → generate_voigt env line wave = .error .uninitColumn) ∧
    (¬(line.attrib.N < 1) → line.attrib.b < 1 →
      generate_voigt env line wave = .error .uninitDoppler) ∧
    (¬(line.attrib.N < 1) → ¬(line.attrib.b < 1) → wave = none →
      line.analy.spec = none →
      generate_voigt env line wave = .error .noWaveSource) := by
  unfold generate_voigt
  by_cases hN : line.attrib.N < 1
  · simp [hN]
  · by_cases hb : line.attrib.b < 1
    · simp [hN, hb]
    · rcases wave with _ | w
      · rcases hs : line.analy.spec with _ | s <;> simp [hN, hb, hs]
      · simp [hN, hb]

/-- A line with valid profile parameters but no spectrum attached. -/
def lineV : AbsLine :=
  { lineW with
    attrib := { lineW.attrib with N := 5, b := 5 }
    analy := { lineW.analy with spec := none } }

/-- Witness for C7: `lineW` has the default `N = 0`, so profile
generation fails on the column check; `lineV` has valid parameters but
no wavelength source. -/
theorem claim7_witness :
    generate_voigt envW lineW none = .error .uninitColumn ∧
    generate_voigt envW lineV none = .error .noWaveSource :=
  ⟨(claim7_voigt_parameter_validation envW lineW none).2.1 (by norm_num [lineW, initAttrib]),
   (claim7_voigt_parameter_validation envW lineV none).2.2.2
     (by norm_num [lineV, lineW, initAttrib]) (by norm_num [lineV, lineW, initAttrib])
     rfl rfl⟩

/-! ### Claim C8: characterization of `many_abslines` -/

lemma mem_npUnique {v : ℚ} {l : List ℚ} : v ∈ npUnique l ↔ v ∈ l := by
  unfold npUnique
  rw [List.mem_dedup]
  exact List.mem_insertionSort _

lemma nodup_npUnique (l : List ℚ) : (npUnique l).Nodup :=
  List.nodup_dedup _

/-- The address dictionary `buildDict` produces: consecutive addresses
starting at `b`, keyed by the uniq values in order. -/
def dictOf : List ℚ → Nat → List (ℚ × Nat)
  | [], _ => []
  | v :: vs, b => (v, b) :: dictOf vs (b + 1)

lemma mkAbsLine_proto (env : Env) (llist : LineListS) (v : ℚ) :
    mkAbsLine env llist v 0 false = (protoLine env v, ⟨false⟩) := rfl

lemma buildDict_eq (env : Env) :
    ∀ (uniq : List ℚ) (llist : LineListS) (h : Heap),
    buildDict env llist uniq h =
      (dictOf uniq h.length, h ++ uniq.map (protoLine env),
       if uniq.isEmpty then llist else ⟨false⟩) := by
  intro uniq
  induction uniq with
  | nil => intro llist h; simp [buildDict, dictOf]
  | cons v vs ih =>
    intro llist h
    simp only [buildDict, dictOf, mkAbsLine_proto]
    rw [ih]
    simp only [List.length_append, List.length_cons, List.length_nil,
      List.append_assoc, List.singleton_append, List.map_cons, List.isEmpty_cons]
    cases vs <;> simp [dictOf]

lemma lookupAddr_cons (v : ℚ) (vs : List ℚ) (b : Nat) (x : ℚ) :
    lookupAddr (dictOf (v :: vs) b) x =
      if v = x then b else lookupAddr (dictOf vs (b + 1)) x := by
  unfold lookupAddr
  show (match List.find? _ ((v, b) :: dictOf vs (b + 1)) with
        | some p => p.2 | none => 0) = _
  by_cases h : v = x
  · rw [List.find?_cons_of_pos _ (by simp [h]), if_pos h]
  · rw [List.find?_cons_of_neg _ (by simp [h]), if_neg h]

lemma lookupAddr_dictOf :
    ∀ (uniq : List ℚ) (b i : Nat) (hi : i < uniq.length), uniq.Nodup →
    lookupAddr (dictOf uniq b) (uniq.get ⟨i, hi⟩) = b + i := by
  intro uniq
  induction uniq with
  | nil => intro b i hi _; exact absurd hi (by simp)
  | cons v vs ih =>
    intro b i hi hnd
    cases i with
    | zero => simp [lookupAddr_cons]
    | succ j =>
      have hj : j < vs.length := by simpa using hi
      have hmem : vs.get ⟨j, hj⟩ ∈ vs := List.get_mem vs j hj
      have hne : v ≠ vs.get ⟨j, hj⟩ := by
        intro he
        exact (List.nodup_cons.mp hnd).1 (he ▸ hmem)
      have hget : (v :: vs).get ⟨j + 1, hi⟩ = vs.get ⟨j, hj⟩ := rfl
      rw [hget, lookupAddr_cons, if_neg hne,
        ih (b + 1) j hj (List.nodup_cons.mp hnd).2]
      omega

lemma copyLoop_eq (adict : List (ℚ × Nat)) :
    ∀ (vs : List ℚ) (h : Heap),
    (∀ v ∈ vs, lookupAddr adict v < h.length) →
    copyLoop adict vs h =
      (List.range' h.length vs.length,
       h ++ vs.map (fun v => (h[lookupAddr adict v]?).getD dummyLine)) := by
  intro vs
  induction vs with
  | nil => intro h _; simp [copyLoop, List.range']
  | cons v vs ih =>
    intro h hb
    have hv : lookupAddr adict v < h.length := hb v (by simp)
    simp only [copyLoop]
    rw [ih (h ++ [(h[lookupAddr adict v]?).getD dummyLine])
      (fun w hw => lt_of_lt_of_le (hb w (by simp [hw])) (by simp))]
    have hmap : vs.map (fun w =>
        (((h ++ [(h[lookupAddr adict v]?).getD dummyLine]))[lookupAddr adict w]?).getD
          dummyLine) =
        vs.map (fun w => (h[lookupAddr adict w]?).getD dummyLine) :=
      List.map_congr_left (fun w hw => by
        rw [List.getElem?_append_left (hb w (by simp [hw]))])
    rw [hmap]
    have hlen : (h ++ [(h[lookupAddr adict v]?).getD dummyLine]).length =
        h.length + 1 := by simp
    rw [hlen]
    have hr : List.range' h.length (vs.length + 1) =
        h.length :: List.range' (h.length + 1) vs.length := List.range'_succ _ _ _
    simp only [List.length_cons, hr, List.map_cons, List.append_assoc,
      List.singleton_append]

lemma lookupAddr_lt (uniq : List ℚ) (hnd : uniq.Nodup) (b : Nat) (v : ℚ)
    (hv : v ∈ uniq) : lookupAddr (dictOf uniq b) v < b + uniq.length := by
  obtain ⟨⟨k, hk⟩, hget⟩ := List.mem_iff_get.mp hv
  rw [← hget, lookupAddr_dictOf uniq b k hk hnd]
  omega

lemma fetch_proto (env : Env) (uniq : List ℚ) (hnd : uniq.Nodup) (h0 : Heap)
    (v : ℚ) (hv : v ∈ uniq) :
    ((h0 ++ uniq.map (protoLine env))[lookupAddr (dictOf uniq h0.length) v]?).getD
        dummyLine = protoLine env v := by
  obtain ⟨⟨k, hk⟩, hget⟩ := List.mem_iff_get.mp hv
  rw [← hget, lookupAddr_dictOf uniq h0.length k hk hnd]
  rw [List.getElem?_append_right (by omega)]
  have hk2 : h0.length + k - h0.length = k := by omega
  rw [hk2, List.getElem?_map, List.getElem?_eq_getElem (by simpa using hk)]
  simp [List.get_eq_getElem]

/-- Closed form of `many_abslines` on a non-empty input: one prototype
per distinct value appended first, then one copy per input element, the
copies' addresses consecutive after the prototypes, and the shared
line-list left with `closest = False`. -/
lemma many_abslines_eq (env : Env) (llist : LineListS) (v0 : ℚ) (vs0 : List ℚ)
    (h0 : Heap) :
    many_abslines env llist (v0 :: vs0) h0 =
      .ok (List.range' (h0.length + (npUnique (v0 :: vs0)).length)
             (v0 :: vs0).length,
           (h0 ++ (npUnique (v0 :: vs0)).map (protoLine env)) ++
             (v0 :: vs0).map (protoLine env),
           ⟨false⟩) := by
  have hnd := nodup_npUnique (v0 :: vs0)
  have hne : (npUnique (v0 :: vs0)).isEmpty = false := by
    have hv : v0 ∈ npUnique (v0 :: vs0) := mem_npUnique.mpr (by simp)
    rcases hn : npUnique (v0 :: vs0) with _ | ⟨a, l⟩
    · rw [hn] at hv
      cases hv
    · rfl
  have hbound : ∀ v ∈ (v0 :: vs0),
      lookupAddr (dictOf (npUnique (v0 :: vs0)) h0.length) v <
        (h0 ++ (npUnique (v0 :: vs0)).map (protoLine env)).length := by
    intro v hv
    have := lookupAddr_lt (npUnique (v0 :: vs0)) hnd h0.length v
      (mem_npUnique.mpr hv)
    simpa using this
  unfold many_abslines
  dsimp only
  rw [buildDict_eq]
  simp only [hne, Bool.false_eq_true, if_false]
  rw [copyLoop_eq _ _ _ hbound]
  have hmap : (v0 :: vs0).map (fun v =>
      (((h0 ++ (npUnique (v0 :: vs0)).map (protoLine env)))[
          lookupAddr (dictOf (npUnique (v0 :: vs0)) h0.length) v]?).getD dummyLine) =
      (v0 :: vs0).map (protoLine env) :=
    List.map_congr_left (fun v hv =>
      fetch_proto env (npUnique (v0 :: vs0)) hnd h0 v (mem_npUnique.mpr hv))
  rw [hmap]
  simp

/-- C8: on a non-empty wavelength list, `many_abslines` returns one
entity address per input element, in input order; the entity at the
`i`-th address is the prototype built by atomic-data lookup for the
`i`-th wavelength (so equal inputs give equal atomic data and rest
wavelength); the addresses are pairwise distinct fresh heap cells, so
setting one entity's `attrib.N` leaves every other returned entity
unchanged; and the heap grew by exactly one looked-up prototype per
**distinct** wavelength plus one deep copy per input element. -/
theorem claim8_many_abslines_dedup_and_copies (env : Env) (llist : LineListS)
    (h0 : Heap) (all_wrest : List ℚ) (hne : all_wrest ≠ []) :
    ∃ addrs h2 llist2,
      many_abslines env llist all_wrest h0 = .ok (addrs, h2, llist2) ∧
      addrs.length = all_wrest.length ∧
      (∀ i, i < all_wrest.length →
        h2[addrs.getD i 0]? = some (protoLine env (all_wrest.getD i 0))) ∧
      addrs.Nodup ∧
      (∀ i j x, i < all_wrest.length → j < all_wrest.length → i ≠ j →
        (setN h2 (addrs.getD i 0) x)[addrs.getD j 0]? = h2[addrs.getD j 0]?) ∧
      (∀ i j, i < all_wrest.length → j < all_wrest.length →
        all_wrest.getD i 0 = all_wrest.getD j 0 →
        h2[addrs.getD i 0]? = h2[addrs.getD j 0]?) ∧
      h2 = (h0 ++ (npUnique all_wrest).map (protoLine env)) ++
             all_wrest.map (protoLine env) := by
  rcases all_wrest with _ | ⟨v0, vs0⟩
  · exact absurd rfl hne
  refine ⟨_, _, _, many_abslines_eq env llist v0 vs0 h0, ?_⟩
  have hS : ((h0 ++ (npUnique (v0 :: vs0)).map (protoLine env))).length =
      h0.length + (npUnique (v0 :: vs0)).length := by simp
  have haddr : ∀ i, i < (v0 :: vs0).length →
      (List.range' (h0.length + (npUnique (v0 :: vs0)).length)
        (v0 :: vs0).length).getD i 0 =
      h0.length + (npUnique (v0 :: vs0)).length + i := by
    intro i hi
    rw [List.getD_eq_getElem?_getD, List.getElem?_eq_getElem (by simpa using hi),
      List.getElem_range']
    simp
  have hfetch : ∀ i, i < (v0 :: vs0).length →
      ((h0 ++ (npUnique (v0 :: vs0)).map (protoLine env)) ++
        (v0 :: vs0).map (protoLine env))[
          h0.length + (npUnique (v0 :: vs0)).length + i]? =
      some (protoLine env ((v0 :: vs0).getD i 0)) := by
    intro i hi
    rw [List.getElem?_append_right (by rw [hS]; omega)]
    rw [hS]
    have hk : h0.length + (npUnique (v0 :: vs0)).length + i -
        (h0.length + (npUnique (v0 :: vs0)).length) = i := by omega
    rw [hk, List.getElem?_map, List.getElem?_eq_getElem (by simpa using hi)]
    rw [List.getD_eq_getElem?_getD, List.getElem?_eq_getElem (by simpa using hi)]
    simp
  refine ⟨by simp, ?_, ?_, ?_, ?_, rfl⟩
  · intro i hi
    rw [haddr i hi]
    exact hfetch i hi
  · exact List.nodup_range' _ _ 1 one_pos
  · intro i j x hi hj hij
    rw [haddr i hi, haddr j hj]
    unfold setN
    rw [List.getElem?_set_ne (by omega)]
  · intro i j hi hj hval
    rw [haddr i hi, haddr j hj, hfetch i hi, hfetch j hj, hval]

/-- Witness for C8: the scenario `[w, w, w2]` with `w ≠ w2` — three
entities, the first two equal copies at distinct addresses, state
mutation independent. -/
theorem claim8_witness :
    ∃ addrs h2 llist2,
      many_abslines envW ⟨true⟩ [5, 5, 7] [] = .ok (addrs, h2, llist2) ∧
      addrs.length = 3 ∧
      h2[addrs.getD 0 0]? = some (protoLine envW 5) ∧
      h2[addrs.getD 1 0]? = some (protoLine envW 5) ∧
      h2[addrs.getD 2 0]? = some (protoLine envW 7) ∧
      addrs.Nodup ∧
      (∀ x, (setN h2 (addrs.getD 0 0) x)[addrs.getD 1 0]? =
        h2[addrs.getD 1 0]?) := by
  obtain ⟨addrs, h2, llist2, hok, hlen, hget, hnd, hset, _, _⟩ :=
    claim8_many_abslines_dedup_and_copies envW ⟨true⟩ [] [5, 5, 7] (by simp)
  exact ⟨addrs, h2, llist2, hok, hlen, hget 0 (by norm_num), hget 1 (by norm_num),
    hget 2 (by norm_num), hnd, fun x => hset 0 1 x (by norm_num) (by norm_num)
      (by norm_num)⟩

/-! ### Claim C9 -/

/-- C9: constructing a line with an already-resolved line-list object
overwrites that shared object's `closest` attribute with the
constructor's flag (`False` by default), so the lookup mode observed by
every other holder of the list — including lines previously built from
it with a different `closest` setting — is the last constructor's. -/
theorem claim9_construction_overwrites_closest (env : Env) (llist : LineListS)
    (w z : ℚ) (c : Bool) :
    (mkAbsLine env llist w z c).2 = { closest := c } ∧
    (mkAbsLine env llist w z false).2.closest = false ∧
    (∀ w2 z2 c2, (mkAbsLine env (mkAbsLine env llist w2 z2 c2).2 w z c).2.closest = c) := by
  exact ⟨rfl, rfl, fun _ _ _ => rfl⟩

/-! ### Claim C10 -/

/-- C10: `many_abslines` on an empty wavelength list raises (the unit of
the first element is read unconditionally) instead of returning an empty
list, whatever the line list and heap. -/
theorem claim10_empty_input_raises (env : Env) (llist : LineListS) (h : Heap) :
    many_abslines env llist [] h = .error .emptyInput := rfl

end Linetools
